import Mathlib

/-!
Shallow embedding of the MD_web_ui labeling tool (src/app.py) and proofs of
the spec claims C1-C10.

Modelling conventions:
* Python dicts (the per-reviewer label store and the label records) are
  embedded as insertion-ordered association lists `List (String × α)` with
  `dictGet` / `dictInsert` / `dictContains` mirroring `d[k]`, `d.get(k)`,
  `d[k] = v` and `k in d`.
* The filesystem holding the per-(reviewer, modality) JSON label files is a
  function `LabelFS : String → String → Option Store`; `save_doctor_labels`
  overwrites one file, `load_doctor_labels` reads it (empty mapping when the
  file does not exist), exactly as in app.py lines 122-134.  JSON
  serialization of a string-keyed dict of string-valued records is faithful,
  so the file content is modelled as the mapping itself.
* A directory listing is a `List String` of basenames; a report directory is
  a function `String → Option String` from file name to contents
  (`none` = file does not exist).
* Python `str.strip()` is `pyStrip` (ASCII whitespace, both ends), Python
  string comparison (used by `sorted`) is code-point lexicographic `lexLe`,
  and `glob.glob(dir/*.ext)` keeps non-hidden names ending in the extension.
* `hashlib.sha256(x).hexdigest()[:16]` is embedded by a full SHA-256
  implementation over `Nat` bytes plus lowercase hex encoding.
-/

namespace MDApp

/-! ### Python dict, truthiness and string helpers -/

/-- `d.get(k)` on an insertion-ordered dict. -/
def dictGet {α : Type} : List (String × α) → String → Option α
  | [], _ => none
  | (k', v) :: rest, k => if k' = k then some v else dictGet rest k

/-- `k in d`. -/
def dictContains {α : Type} (d : List (String × α)) (k : String) : Bool :=
  (dictGet d k).isSome

/-- `d[k] = v`: replaces in place if the key exists, else appends
(Python dicts keep first-insertion order). -/
def dictInsert {α : Type} (k : String) (v : α) : List (String × α) → List (String × α)
  | [] => [(k, v)]
  | (k', v') :: rest => if k' = k then (k, v) :: rest else (k', v') :: dictInsert k v rest

/-- Python truthiness of an optional string (`None` and `""` are falsy). -/
def truthy : Option String → Bool
  | some s => s ≠ ""
  | none => false

/-- Python `a or d` where `a` is an optional string and `d` a default. -/
def pyOrD (a : Option String) (d : String) : String :=
  match a with
  | some s => if s = "" then d else s
  | none => d

/-- Characters removed by Python `str.strip()` (ASCII whitespace). -/
def isSpaceChar (c : Char) : Bool :=
  c = ' ' || c = '\t' || c = '\n' || c = '\r' || c = '\x0b' || c = '\x0c'

/-- `str.strip()` on a character list. -/
def stripChars (cs : List Char) : List Char :=
  ((cs.dropWhile isSpaceChar).reverse.dropWhile isSpaceChar).reverse

/-- Python `s.strip()`. -/
def pyStrip (s : String) : String := String.mk (stripChars s.data)

/-- Python string `<=` (code-point lexicographic), as used by `sorted`. -/
def lexLe : List Char → List Char → Bool
  | [], _ => true
  | _ :: _, [] => false
  | a :: as, b :: bs =>
    if a.toNat < b.toNat then true
    else if a.toNat = b.toNat then lexLe as bs
    else false

/-- String comparison wrapper for `sorted`. -/
def strLe (a b : String) : Bool := lexLe a.data b.data

/-- Is the first list an initial segment of the second? -/
def charsLeadWith : List Char → List Char → Bool
  | [], _ => true
  | _ :: _, [] => false
  | p :: ps, c :: cs => (p = c) && charsLeadWith ps cs

/-- Python `s.startswith(pat)`. -/
def strStartsWith (s pat : String) : Bool := charsLeadWith pat.data s.data

/-- Python `s.endswith(pat)`. -/
def strEndsWith (s pat : String) : Bool :=
  charsLeadWith pat.data.reverse s.data.reverse

/-! ### app.py constants (lines 62-65) -/

def MODALITIES : List String := ["CXR", "MRI", "CT", "Pathology"]

def DIFFICULTIES : List String := ["easy", "medium", "hard"]

/-! ### Item catalog (app.py lines 80-101) -/

/-- One entry of `image_data` as built by `load_image_data`. -/
structure ImageData where
  filename : String
  modality : String
  difficulty : String
deriving DecidableEq, Repr

/-- Does `glob.glob(dir/*ext)` match this basename?  `*` does not match
hidden files, and matching is case-sensitive on the extension. -/
def globMatch (ext : String) (name : String) : Bool :=
  !strStartsWith name "." && strEndsWith name ext

/-- The extensions tried by `list_image_files` (app.py line 82), in order. -/
def IMG_EXTS : List String := [".png", ".jpg", ".jpeg", ".bmp"]

/-- `list_image_files(images_dir)`: collect matches of each glob pattern,
then return the basenames sorted (app.py lines 80-87).  `dir` is the raw
directory listing; a missing directory is the empty listing. -/
def list_image_files (dir : List String) : List String :=
  (IMG_EXTS.flatMap (fun ext => dir.filter (globMatch ext))).mergeSort strLe

/-- `load_image_data(modality)` (app.py lines 89-101): scan the bucket
directories in the fixed order `DIFFICULTIES`.  `dirs` maps a difficulty
bucket to the raw listing of `data/<modality>/images/<bucket>`. -/
def load_image_data (dirs : String → List String) (modality : String) : List ImageData :=
  DIFFICULTIES.flatMap (fun difficulty =>
    (list_image_files (dirs difficulty)).map
      (fun filename => ⟨filename, modality, difficulty⟩))

/-! ### Report resolver (app.py lines 103-114) -/

/-- `os.path.splitext(p)[0]` for a plain basename: split at the last dot,
except that a name whose characters before the last dot are all dots
(e.g. `".png"`, `"..png"`) is not split. -/
def splitextBase (filename : String) : String :=
  let cs := filename.data
  match (cs.reverse.findIdx? (· = '.')) with
  | none => filename
  | some j =>
    let i := cs.length - 1 - j
    if (cs.take i).all (· = '.') then filename else String.mk (cs.take i)

/-- `load_ehr_text(filename, modality, difficulty)` (app.py lines 103-114).
`reports` maps a candidate file name to its contents within the fixed
`data/<modality>/reports/<difficulty>` directory (`none` = does not exist). -/
def load_ehr_text (reports : String → Option String) (filename : String) : String :=
  let base := splitextBase filename
  match reports (base ++ ".txt") with
  | some t => pyStrip t
  | none =>
    match reports (base ++ ".ehr.txt") with
    | some t => pyStrip t
    | none =>
      match reports (base ++ ".report.txt") with
      | some t => pyStrip t
      | none => "Report not found"

/-! ### Label store (app.py lines 116-134) -/

/-- A label record: the Python dict stored per item key (string fields). -/
abbrev LabelRecord := List (String × String)

/-- A per-(reviewer, modality) store: item key → record, insertion ordered. -/
abbrev Store := List (String × LabelRecord)

/-- The collection of `doctor_labels/<modality>/doctor_<id>.json` files:
`none` = the file does not exist yet. -/
def LabelFS : Type := String → String → Option Store

/-- `load_doctor_labels(doctor_id, modality)` (app.py lines 122-128):
the parsed file contents, or the empty mapping when the file is absent. -/
def load_doctor_labels (fs : LabelFS) (doctor_id modality : String) : Store :=
  (fs doctor_id modality).getD []

/-- `save_doctor_labels(doctor_id, modality, labels)` (app.py lines 130-134):
overwrite that one file with the serialized mapping. -/
def save_doctor_labels (fs : LabelFS) (doctor_id modality : String)
    (labels : Store) : LabelFS :=
  fun d m => if d = doctor_id ∧ m = modality then some labels else fs d m

/-! ### Session controller pieces (app.py main, lines 284-314) -/

/-- `make_label_key(difficulty, filename)` (app.py lines 285-286). -/
def make_label_key (img : ImageData) : String :=
  img.difficulty ++ "/" ++ img.filename

/-- `unlabeled_images` (app.py line 288): the catalog filtered to items whose
key is absent from the store. -/
def unlabeled_images (catalog : List ImageData) (labels : Store) : List ImageData :=
  catalog.filter (fun img => !dictContains labels (make_label_key img))

/-- `current_image = unlabeled_images[0]` when nonempty (app.py line 314);
`none` models the all-labeled branch (line 290). -/
def currentImage (catalog : List ImageData) (labels : Store) : Option ImageData :=
  (unlabeled_images catalog labels).head?

/-- Sidebar progress fraction (app.py line 266):
`len(labels)/len(catalog) if image_data_list else 0`. -/
def progress (labels : Store) (catalog : List ImageData) : ℚ :=
  if catalog = [] then 0 else (labels.length : ℚ) / (catalog.length : ℚ)

/-! ### save_label and the history edits (app.py lines 393-422, 479-515) -/

/-- Python `reasoning.strip() if reasoning else ""`. -/
def stripReasoning (reasoning : String) : String :=
  if reasoning = "" then "" else pyStrip reasoning

/-- The `label_data` dict literal built inside `save_label`
(app.py lines 399-407); `now` is `datetime.datetime.now().isoformat()`. -/
def mkLabelData (confidence now : String) (img : ImageData)
    (ehr_text reasoning : String) : LabelRecord :=
  [("doctor_confidence", confidence),
   ("timestamp", now),
   ("modality", img.modality),
   ("difficulty", img.difficulty),
   ("filename", img.filename),
   ("ehr_text", ehr_text),
   ("reasoning", stripReasoning reasoning)]

/-- `save_label(doctor_id, modality, label_key, difficulty, image_data,
ehr_text, reasoning)` (app.py lines 393-410): load the store, upsert the
freshly built record under `label_key`, save the store back. -/
def save_label (fs : LabelFS) (doctor_id modality label_key confidence now : String)
    (img : ImageData) (ehr_text reasoning : String) : LabelFS :=
  save_doctor_labels fs doctor_id modality
    (dictInsert label_key (mkLabelData confidence now img ehr_text reasoning)
      (load_doctor_labels fs doctor_id modality))

/-- `label_data.get('doctor_confidence') or label_data.get('doctor_difficulty')
or 'medium'` (app.py line 480), the category reused by "Save EHR Only". -/
def currentConf (label_data : LabelRecord) : String :=
  pyOrD (dictGet label_data "doctor_confidence")
    (pyOrD (dictGet label_data "doctor_difficulty") "medium")

/-- The record category the fallback chain reads before defaulting:
`some c` when the record has a truthy `doctor_confidence`, else a truthy
`doctor_difficulty`; `none` when neither is present and truthy. -/
def recordCategory (label_data : LabelRecord) : Option String :=
  if truthy (dictGet label_data "doctor_confidence") then
    dictGet label_data "doctor_confidence"
  else if truthy (dictGet label_data "doctor_difficulty") then
    dictGet label_data "doctor_difficulty"
  else none

/-- The "Save EHR Only" button handler (app.py lines 479-483): re-saves the
record under the same key with the current category from the fallback chain,
the (possibly edited) report text and the edited reasoning. -/
def save_ehr_only (fs : LabelFS) (doctor_id modality label_key : String)
    (label_data : LabelRecord) (now : String) (img : ImageData)
    (ehr_text edit_reasoning : String) : LabelFS :=
  save_label fs doctor_id modality label_key (currentConf label_data) now
    img ehr_text edit_reasoning

/-! ### SHA-256 (for `hash_doctor_id`, app.py lines 136-138)

`hashlib.sha256(doctor_id.encode()).hexdigest()[:16]`.  The implementation
below is the standard SHA-256 over `Nat` bytes; 32-bit words are `Nat`
values reduced mod `2 ^ 32`, and the bitwise operations are fuel-based
structural recursions so the kernel can evaluate them. -/

def w32 (n : Nat) : Nat := n % 4294967296

/-- Bitwise AND of the low `fuel` bits. -/
def bitAnd : Nat → Nat → Nat → Nat
  | 0, _, _ => 0
  | f + 1, a, b => a % 2 * (b % 2) + 2 * bitAnd f (a / 2) (b / 2)

/-- Bitwise XOR of the low `fuel` bits. -/
def bitXor : Nat → Nat → Nat → Nat
  | 0, _, _ => 0
  | f + 1, a, b => (a % 2 + b % 2) % 2 + 2 * bitXor f (a / 2) (b / 2)

def and32 (a b : Nat) : Nat := bitAnd 32 a b

def xor32 (a b : Nat) : Nat := bitXor 32 a b

/-- 32-bit right rotation of `x` (with `x < 2 ^ 32`) by `n` places. -/
def rotr (n x : Nat) : Nat := x / 2 ^ n + x % 2 ^ n * 2 ^ (32 - n)

def bsig0 (x : Nat) : Nat := xor32 (xor32 (rotr 2 x) (rotr 13 x)) (rotr 22 x)

def bsig1 (x : Nat) : Nat := xor32 (xor32 (rotr 6 x) (rotr 11 x)) (rotr 25 x)

def ssig0 (x : Nat) : Nat := xor32 (xor32 (rotr 7 x) (rotr 18 x)) (x / 8)

def ssig1 (x : Nat) : Nat := xor32 (xor32 (rotr 17 x) (rotr 19 x)) (x / 1024)

def chF (x y z : Nat) : Nat := xor32 (and32 x y) (and32 (xor32 x 4294967295) z)

def majF (x y z : Nat) : Nat := xor32 (xor32 (and32 x y) (and32 x z)) (and32 y z)

/-- The 64 SHA-256 round constants (FIPS 180-4), in decimal. -/
def K256 : List Nat :=
  [1116352408, 1899447441, 3049323471, 3921009573, 961987163, 1508970993,
   2453635748, 2870763221, 3624381080, 310598401, 607225278, 1426881987,
   1925078388, 2162078206, 2614888103, 3248222580, 3835390401, 4022224774,
   264347078, 604807628, 770255983, 1249150122, 1555081692, 1996064986,
   2554220882, 2821834349, 2952996808, 3210313671, 3336571891, 3584528711,
   113926993, 338241895, 666307205, 773529912, 1294757372, 1396182291,
   1695183700, 1986661051, 2177026350, 2456956037, 2730485921, 2820302411,
   3259730800, 3345764771, 3516065817, 3600352804, 4094571909, 275423344,
   430227734, 506948616, 659060556, 883997877, 958139571, 1322822218,
   1537002063, 1747873779, 1955562222, 2024104815, 2227730452, 2361852424,
   2428436474, 2756734187, 3204031479, 3329325298]

/-- The eight 32-bit words of the hash state. -/
structure Hash8 where
  h0 : Nat
  h1 : Nat
  h2 : Nat
  h3 : Nat
  h4 : Nat
  h5 : Nat
  h6 : Nat
  h7 : Nat

def initH : Hash8 :=
  ⟨1779033703, 3144134277, 1013904242, 2773480762,
   1359893119, 2600822924, 528734635, 1541459225⟩

/-- 64-bit big-endian byte decomposition. -/
def be64 (n : Nat) : List Nat :=
  [n / 72057594037927936 % 256, n / 281474976710656 % 256, n / 1099511627776 % 256,
   n / 4294967296 % 256, n / 16777216 % 256, n / 65536 % 256, n / 256 % 256, n % 256]

/-- 32-bit big-endian byte decomposition. -/
def wordBytes (w : Nat) : List Nat :=
  [w / 16777216 % 256, w / 65536 % 256, w / 256 % 256, w % 256]

/-- SHA-256 padding: append `0x80`, zeros to 56 mod 64, then the bit length. -/
def padMessage (ms : List Nat) : List Nat :=
  ms ++ 128 :: List.replicate ((119 - ms.length % 64) % 64) 0 ++ be64 (ms.length * 8)

/-- Split a (padded) message into 64-byte blocks. -/
def chunks64 (l : List Nat) : List (List Nat) :=
  (List.range ((l.length + 63) / 64)).map (fun i => (l.drop (64 * i)).take 64)

/-- Combine bytes into big-endian 32-bit words. -/
def bytesToWords : List Nat → List Nat
  | b0 :: b1 :: b2 :: b3 :: rest =>
    (b0 * 16777216 + b1 * 65536 + b2 * 256 + b3) :: bytesToWords rest
  | _ => []

/-- One step of the message-schedule extension. -/
def scheduleStep (ws : List Nat) : List Nat :=
  let t := ws.length
  ws ++ [w32 (ssig1 (ws.getD (t - 2) 0) + ws.getD (t - 7) 0 +
              ssig0 (ws.getD (t - 15) 0) + ws.getD (t - 16) 0)]

/-- Extend the 16 block words to the 64-entry message schedule. -/
def schedule (block16 : List Nat) : List Nat :=
  (List.range 48).foldl (fun ws _ => scheduleStep ws) block16

/-- One SHA-256 compression round; `wk` is `(W[t], K[t])`. -/
def roundStep (s : Hash8) (wk : Nat × Nat) : Hash8 :=
  let t1 := w32 (s.h7 + bsig1 s.h4 + chF s.h4 s.h5 s.h6 + wk.2 + wk.1)
  let t2 := w32 (bsig0 s.h0 + majF s.h0 s.h1 s.h2)
  ⟨w32 (t1 + t2), s.h0, s.h1, s.h2, w32 (s.h3 + t1), s.h4, s.h5, s.h6⟩

/-- Compress one 64-byte block into the hash state. -/
def compressBlock (h : Hash8) (block : List Nat) : Hash8 :=
  let ws := schedule (bytesToWords block)
  let s := (ws.zip K256).foldl roundStep h
  ⟨w32 (h.h0 + s.h0), w32 (h.h1 + s.h1), w32 (h.h2 + s.h2), w32 (h.h3 + s.h3),
   w32 (h.h4 + s.h4), w32 (h.h5 + s.h5), w32 (h.h6 + s.h6), w32 (h.h7 + s.h7)⟩

/-- SHA-256 digest of a byte list, as 32 bytes. -/
def sha256 (ms : List Nat) : List Nat :=
  let h := (chunks64 (padMessage ms)).foldl compressBlock initH
  wordBytes h.h0 ++ wordBytes h.h1 ++ wordBytes h.h2 ++ wordBytes h.h3 ++
  wordBytes h.h4 ++ wordBytes h.h5 ++ wordBytes h.h6 ++ wordBytes h.h7

/-- The lowercase hex digit for `n < 16`: `0`-`9` then `a`-`f`. -/
def hexDigitChar (n : Nat) : Char :=
  if n < 10 then Char.ofNat (48 + n) else Char.ofNat (87 + n)

/-- Lowercase hex encoding (`hexdigest`) as a character list. -/
def bytesToHexChars (bs : List Nat) : List Char :=
  bs.flatMap (fun b => [hexDigitChar (b / 16 % 16), hexDigitChar (b % 16)])

/-- UTF-8 encoding of one character (Python `str.encode()`). -/
def utf8EncodeChar (c : Char) : List Nat :=
  let n := c.toNat
  if n < 128 then [n]
  else if n < 2048 then [192 + n / 64, 128 + n % 64]
  else if n < 65536 then [224 + n / 4096, 128 + n / 64 % 64, 128 + n % 64]
  else [240 + n / 262144, 128 + n / 4096 % 64, 128 + n / 64 % 64, 128 + n % 64]

def utf8Encode (cs : List Char) : List Nat := cs.flatMap utf8EncodeChar

/-- `hash_doctor_id(doctor_id)` (app.py lines 136-138):
`hashlib.sha256(doctor_id.encode()).hexdigest()[:16]`. -/
def hash_doctor_id (doctor_id : String) : String :=
  String.mk ((bytesToHexChars (sha256 (utf8Encode doctor_id.data))).take 16)

/-! ### Auth gate (app.py lines 140-171) and the main flow (202-314) -/

/-- The observable outcome of `authenticate_doctor` (app.py lines 148-171).
The Python function returns `(doctor_id, doctor_hash)` on success and
`(None, None)` otherwise; the failing branches are told apart by the sidebar
message each one renders (whitelist-missing error, invalid-ID error, or no
message at all for empty input), which the constructors record. -/
inductive AuthResult where
  | whitelistMissing
  | notYetAuthenticated
  | rejected
  | success (doctor_id doctor_hash : String)
deriving DecidableEq, Repr

/-- `authenticate_doctor()` (app.py lines 148-171) over a given whitelist and
text-input value: an empty whitelist fails first; then a non-empty input is
checked verbatim against the whitelist; an empty input falls through to the
final `return None, None` with no error message. -/
def authenticate_doctor (whitelist : List String) (input : String) : AuthResult :=
  if whitelist = [] then .whitelistMissing
  else if input ≠ "" then
    if input ∈ whitelist then .success input (hash_doctor_id input)
    else .rejected
  else .notYetAuthenticated

/-- The raw `return` tuple of the Python function for a given outcome. -/
def authReturn : AuthResult → Option String × Option String
  | .success i h => (some i, some h)
  | _ => (none, none)

/-- The page `main()` ends up rendering (app.py lines 202-314). -/
inductive Page where
  | needAuth (r : AuthResult)
  | history
  | allLabeled
  | review (img : ImageData)
deriving DecidableEq, Repr

/-- One run of `main()` (app.py lines 202-314) as a pure function of the
whitelist, the text input, the selected modality, the label files and the
scanned catalog.  Returns the rendered page, the sidebar progress data
`(len(doctor_labels), len(image_data_list), progress)` (lines 260-269), and
the list of `load_doctor_labels` calls made (line 249, plus the reload at
line 275 or 309 for the history / all-labeled views).  When authentication
fails, `main` returns before touching any label store (lines 208-239). -/
def runMain (whitelist : List String) (input modality : String) (fs : LabelFS)
    (catalog : List ImageData) (showPrev : Bool) :
    Page × (Nat × Nat × ℚ) × List (String × String) :=
  match authenticate_doctor whitelist input with
  | .success doctor_id _ =>
    let labels := load_doctor_labels fs doctor_id modality
    let stats := (labels.length, catalog.length, progress labels catalog)
    if showPrev then
      (.history, stats, [(doctor_id, modality), (doctor_id, modality)])
    else
      match currentImage catalog labels with
      | none => (.allLabeled, stats, [(doctor_id, modality), (doctor_id, modality)])
      | some img => (.review img, stats, [(doctor_id, modality)])
  | r => (.needAuth r, (0, 0, 0), [])

/-! ### Helper lemmas: dict operations and the label store -/

theorem dictGet_dictInsert {α : Type} (k q : String) (v : α) (d : List (String × α)) :
    dictGet (dictInsert k v d) q = if k = q then some v else dictGet d q := by
  induction d with
  | nil => simp [dictInsert, dictGet]
  | cons kv rest ih =>
    obtain ⟨k', v'⟩ := kv
    by_cases h1 : k' = k
    · subst h1
      by_cases h2 : k' = q <;> simp [dictInsert, dictGet, h2]
    · by_cases h2 : k' = q
      · subst h2
        have h3 : k ≠ k' := fun hh => h1 hh.symm
        simp [dictInsert, dictGet, h1, h3]
      · simp [dictInsert, dictGet, h1, h2, ih]

theorem dictContains_dictInsert {α : Type} (k q : String) (v : α) (d : List (String × α)) :
    dictContains (dictInsert k v d) q = if k = q then true else dictContains d q := by
  by_cases h : k = q <;> simp [dictContains, dictGet_dictInsert, h]

theorem load_after_save (fs : LabelFS) (d m : String) (S : Store) :
    load_doctor_labels (save_doctor_labels fs d m S) d m = S := by
  simp [load_doctor_labels, save_doctor_labels]

theorem load_after_save_label (fs : LabelFS)
    (d m key conf now : String) (img : ImageData) (ehr reas : String) :
    load_doctor_labels (save_label fs d m key conf now img ehr reas) d m =
      dictInsert key (mkLabelData conf now img ehr reas) (load_doctor_labels fs d m) := by
  simp [save_label, load_after_save]

theorem unlabeled_images_congr (catalog : List ImageData) (s1 s2 : Store)
    (h : ∀ img ∈ catalog,
      dictContains s1 (make_label_key img) = dictContains s2 (make_label_key img)) :
    unlabeled_images catalog s1 = unlabeled_images catalog s2 := by
  unfold unlabeled_images
  apply List.filter_congr
  intro img hm
  rw [h img hm]

/-! ### Helper lemmas: lexicographic order and sorting -/

theorem lexLe_cons (x y : Char) (xs ys : List Char) :
    lexLe (x :: xs) (y :: ys) = true ↔
      x.toNat < y.toNat ∨ (x.toNat = y.toNat ∧ lexLe xs ys = true) := by
  by_cases h1 : x.toNat < y.toNat
  · simp [lexLe, h1]
  · by_cases h2 : x.toNat = y.toNat
    · simp [lexLe, h1, h2]
    · simp [lexLe, h1, h2]

theorem lexLe_trans (a b c : List Char) :
    lexLe a b = true → lexLe b c = true → lexLe a c = true := by
  induction a generalizing b c with
  | nil => intro _ _; simp [lexLe]
  | cons x xs ih =>
    cases b with
    | nil => intro h _; simp [lexLe] at h
    | cons y ys =>
      cases c with
      | nil => intro _ h; simp [lexLe] at h
      | cons z zs =>
        intro h1 h2
        rw [lexLe_cons] at h1 h2 ⊢
        rcases h1 with h1 | ⟨h1e, h1r⟩ <;> rcases h2 with h2 | ⟨h2e, h2r⟩
        · exact Or.inl (by omega)
        · exact Or.inl (by omega)
        · exact Or.inl (by omega)
        · exact Or.inr ⟨by omega, ih ys zs h1r h2r⟩

theorem lexLe_total (a b : List Char) : (lexLe a b || lexLe b a) = true := by
  induction a generalizing b with
  | nil => simp [lexLe]
  | cons x xs ih =>
    cases b with
    | nil => simp [lexLe]
    | cons y ys =>
      simp only [Bool.or_eq_true, lexLe_cons]
      rcases Nat.lt_trichotomy x.toNat y.toNat with h | h | h
      · exact Or.inl (Or.inl h)
      · rcases (by simpa [Bool.or_eq_true] using ih ys :
          lexLe xs ys = true ∨ lexLe ys xs = true) with hr | hr
        · exact Or.inl (Or.inr ⟨h, hr⟩)
        · exact Or.inr (Or.inr ⟨h.symm, hr⟩)
      · exact Or.inr (Or.inl h)

theorem strLe_trans (a b c : String) :
    strLe a b = true → strLe b c = true → strLe a c = true :=
  lexLe_trans a.data b.data c.data

theorem strLe_total (a b : String) : (strLe a b || strLe b a) = true :=
  lexLe_total a.data b.data

theorem list_image_files_sorted (dir : List String) :
    (list_image_files dir).Pairwise (fun a b => strLe a b = true) :=
  List.sorted_mergeSort strLe_trans strLe_total _

theorem mem_list_image_files (dir : List String) (name : String) :
    name ∈ list_image_files dir ↔
      ∃ ext ∈ IMG_EXTS, name ∈ dir ∧ globMatch ext name = true := by
  simp [list_image_files, List.mem_flatMap, List.mem_filter]

/-! ### Helper lemmas: digest length -/

theorem bytesToHexChars_length (bs : List Nat) :
    (bytesToHexChars bs).length = 2 * bs.length := by
  induction bs with
  | nil => rfl
  | cons b rest ih =>
    simp only [bytesToHexChars, List.flatMap_cons, List.length_append,
      List.length_cons, List.length_nil] at ih ⊢
    omega

theorem sha256_length (ms : List Nat) : (sha256 ms).length = 32 := by
  simp [sha256, wordBytes]

theorem hash_doctor_id_length (s : String) : (hash_doctor_id s).length = 16 := by
  have h1 := bytesToHexChars_length (sha256 (utf8Encode s.data))
  have h2 := sha256_length (utf8Encode s.data)
  simp [hash_doctor_id, String.length, List.length_take, h1, h2]

/-! ### Claim theorems -/

/-- C1: Label-store round-trip.  For every reviewer identifier, modality and
mapping `S` from item keys to label records, `load_doctor_labels` after a
fresh `save_doctor_labels` of `S` for that reviewer and modality returns
exactly `S`.  (The store file is modelled as holding the saved mapping;
JSON round-trips a string-keyed dict of string-field records faithfully.) -/
theorem c1_label_store_roundtrip (fs : LabelFS) (reviewer modality : String)
    (S : Store) :
    load_doctor_labels (save_doctor_labels fs reviewer modality S)
      reviewer modality = S :=
  load_after_save fs reviewer modality S

/-- C3: Catalog enumeration order.  `load_image_data` returns the items
grouped by the fixed difficulty-bucket order easy, medium, hard; within one
bucket `list_image_files` is lexicographically sorted (code-point order, as
Python `sorted`) and contains exactly the non-hidden basenames of the
directory with a recognized image extension; an empty (or missing, hence
empty) bucket listing contributes zero items and raises no error. -/
theorem c3_catalog_order (dirs : String → List String) (modality : String) :
    load_image_data dirs modality =
        ((list_image_files (dirs "easy")).map
          (fun filename => ⟨filename, modality, "easy"⟩) ++
         (list_image_files (dirs "medium")).map
          (fun filename => ⟨filename, modality, "medium"⟩) ++
         (list_image_files (dirs "hard")).map
          (fun filename => ⟨filename, modality, "hard"⟩)) ∧
    (∀ d, (list_image_files (dirs d)).Pairwise (fun a b => strLe a b = true)) ∧
    (∀ d name, name ∈ list_image_files (dirs d) ↔
      (name ∈ dirs d ∧ strStartsWith name "." = false ∧
        (strEndsWith name ".png" = true ∨ strEndsWith name ".jpg" = true ∨
         strEndsWith name ".jpeg" = true ∨ strEndsWith name ".bmp" = true))) ∧
    (∀ d, dirs d = [] → list_image_files (dirs d) = []) := by
  refine ⟨?_, fun d => list_image_files_sorted (dirs d), ?_, ?_⟩
  · simp [load_image_data, DIFFICULTIES]
  · intro d name
    rw [mem_list_image_files]
    simp only [IMG_EXTS, List.mem_cons, List.mem_singleton, globMatch,
      Bool.and_eq_true, Bool.not_eq_true']
    constructor
    · rintro ⟨ext, hext, hmem, hdot, hend⟩
      rcases hext with rfl | rfl | rfl | rfl | h
      · exact ⟨hmem, hdot, Or.inl hend⟩
      · exact ⟨hmem, hdot, Or.inr (Or.inl hend)⟩
      · exact ⟨hmem, hdot, Or.inr (Or.inr (Or.inl hend))⟩
      · exact ⟨hmem, hdot, Or.inr (Or.inr (Or.inr hend))⟩
      · cases h
    · rintro ⟨hmem, hdot, hend | hend | hend | hend⟩
      · exact ⟨".png", by simp, hmem, hdot, hend⟩
      · exact ⟨".jpg", by simp, hmem, hdot, hend⟩
      · exact ⟨".jpeg", by simp, hmem, hdot, hend⟩
      · exact ⟨".bmp", by simp, hmem, hdot, hend⟩
  · intro d h
    rw [h]
    simp [list_image_files, IMG_EXTS]

/-- C3 witness: an empty bucket listing contributes zero items. -/
theorem c3_catalog_order_witness :
    list_image_files ((fun _ => ([] : List String)) "easy") = [] :=
  (c3_catalog_order (fun _ => []) "CXR").2.2.2 "easy" rfl

/-- C4: Report resolution.  For a filename with base name obtained by
stripping the extension, `load_ehr_text` tries the candidate report names
`base.txt`, `base.ehr.txt`, `base.report.txt` in exactly that order inside
the modality+bucket report directory, returns the stripped contents of the
first candidate that exists, and returns the sentinel "Report not found"
(no exception) when none exists. -/
theorem c4_report_resolution (reports : String → Option String)
    (filename : String) :
    (∀ t, reports (splitextBase filename ++ ".txt") = some t →
      load_ehr_text reports filename = pyStrip t) ∧
    (reports (splitextBase filename ++ ".txt") = none →
      ∀ t, reports (splitextBase filename ++ ".ehr.txt") = some t →
        load_ehr_text reports filename = pyStrip t) ∧
    (reports (splitextBase filename ++ ".txt") = none →
      reports (splitextBase filename ++ ".ehr.txt") = none →
        ∀ t, reports (splitextBase filename ++ ".report.txt") = some t →
          load_ehr_text reports filename = pyStrip t) ∧
    (reports (splitextBase filename ++ ".txt") = none →
      reports (splitextBase filename ++ ".ehr.txt") = none →
        reports (splitextBase filename ++ ".report.txt") = none →
          load_ehr_text reports filename = "Report not found") := by
  refine ⟨?_, ?_, ?_, ?_⟩
  · intro t h1
    simp [load_ehr_text, h1]
  · intro h1 t h2
    simp [load_ehr_text, h1, h2]
  · intro h1 h2 t h3
    simp [load_ehr_text, h1, h2, h3]
  · intro h1 h2 h3
    simp [load_ehr_text, h1, h2, h3]

/-- C4 witness: for `scan007.png` with only `scan007.ehr.txt` present,
the second candidate wins. -/
theorem c4_report_resolution_witness :
    ((fun n => if n = "scan007.ehr.txt" then some " EHR BODY " else none) :
        String → Option String) "scan007.txt" = none ∧
    load_ehr_text
      (fun n => if n = "scan007.ehr.txt" then some " EHR BODY " else none)
      "scan007.png" = pyStrip " EHR BODY " :=
  ⟨by decide,
   (c4_report_resolution
      (fun n => if n = "scan007.ehr.txt" then some " EHR BODY " else none)
      "scan007.png").2.1 (by decide) " EHR BODY " (by decide)⟩

/-- C5: Authentication success.  Any non-empty identifier present verbatim
in the allow-list authenticates, and the returned handle is
`hash_doctor_id` of the identifier, of fixed length 16.  Determinism (two
calls on the same input agree) is definitional for the pure function
`hash_doctor_id`.  Membership is checked case-sensitively: any non-empty
identifier not verbatim in the list — in particular one differing only in
case from a member — is rejected. -/
theorem c5_auth_success (whitelist : List String) (id : String)
    (hne : id ≠ "") (hmem : id ∈ whitelist) :
    authenticate_doctor whitelist id = .success id (hash_doctor_id id) ∧
    (hash_doctor_id id).length = 16 ∧
    (∀ id2, id2 ≠ "" → id2 ∉ whitelist →
      authenticate_doctor whitelist id2 = .rejected) := by
  have hwl : whitelist ≠ [] := List.ne_nil_of_mem hmem
  refine ⟨?_, hash_doctor_id_length id, ?_⟩
  · simp [authenticate_doctor, hwl, hne, hmem]
  · intro id2 h1 h2
    simp [authenticate_doctor, hwl, h1, h2]

/-- C5 witness: with allow-list `["DOC1", "DOC2"]`, `"DOC1"` succeeds with a
16-character handle and wrong-case `"doc1"` is rejected. -/
theorem c5_auth_success_witness :
    ("DOC1" : String) ≠ "" ∧ "DOC1" ∈ (["DOC1", "DOC2"] : List String) ∧
    authenticate_doctor ["DOC1", "DOC2"] "DOC1" =
      .success "DOC1" (hash_doctor_id "DOC1") ∧
    (hash_doctor_id "DOC1").length = 16 ∧
    authenticate_doctor ["DOC1", "DOC2"] "doc1" = .rejected := by
  have h := c5_auth_success ["DOC1", "DOC2"] "DOC1" (by decide) (by decide)
  exact ⟨by decide, by decide, h.1, h.2.1, h.2.2 "doc1" (by decide) (by decide)⟩

/-- C6: Authentication failure.  On an empty whitelist the outcome is the
whitelist-missing error; on empty input it is the silent not-yet-
authenticated fall-through; on a non-member it is the invalid-ID rejection;
the three outcomes are distinct, so the rendered guidance distinguishes
"not yet authenticated" from "rejected".  (The raw Python return tuple is
`(None, None)` in all failing branches — `authReturn` — and the branches are
told apart by the sidebar message each renders, which the `AuthResult`
constructors record.)  In every failing case `runMain` returns at the
warning page before performing any label-store load, so no session state or
store is touched. -/
theorem c6_auth_failure (whitelist : List String) (modality : String)
    (fs : LabelFS) (catalog : List ImageData) (showPrev : Bool) :
    (whitelist ≠ [] →
      authenticate_doctor whitelist "" = .notYetAuthenticated ∧
      runMain whitelist "" modality fs catalog showPrev =
        (.needAuth .notYetAuthenticated, (0, 0, 0), [])) ∧
    (∀ input, authenticate_doctor [] input = .whitelistMissing ∧
      runMain [] input modality fs catalog showPrev =
        (.needAuth .whitelistMissing, (0, 0, 0), [])) ∧
    (∀ input, whitelist ≠ [] → input ≠ "" → input ∉ whitelist →
      authenticate_doctor whitelist input = .rejected ∧
      runMain whitelist input modality fs catalog showPrev =
        (.needAuth .rejected, (0, 0, 0), [])) ∧
    (AuthResult.notYetAuthenticated ≠ AuthResult.rejected ∧
     AuthResult.notYetAuthenticated ≠ AuthResult.whitelistMissing) := by
  refine ⟨?_, ?_, ?_, by simp, by simp⟩
  · intro hwl
    constructor
    · simp [authenticate_doctor, hwl]
    · simp [runMain, authenticate_doctor, hwl]
  · intro input
    constructor
    · simp [authenticate_doctor]
    · simp [runMain, authenticate_doctor]
  · intro input hwl h1 h2
    constructor
    · simp [authenticate_doctor, hwl, h1, h2]
    · simp [runMain, authenticate_doctor, hwl, h1, h2]

/-- C6 witness: empty input against allow-list `["DOC1"]` yields the
not-yet-authenticated outcome and no store load. -/
theorem c6_auth_failure_witness :
    (["DOC1"] : List String) ≠ [] ∧
    (authenticate_doctor ["DOC1"] "" = .notYetAuthenticated ∧
     runMain ["DOC1"] "" "CXR" (fun _ _ => none) [] false =
       (.needAuth .notYetAuthenticated, (0, 0, 0), [])) :=
  ⟨by decide,
   (c6_auth_failure ["DOC1"] "CXR" (fun _ _ => none) [] false).1 (by decide)⟩

/-- C9: Degenerate empty catalog.  With an empty catalog (and a fresh empty
store) an authenticated session lands immediately on the all-labeled page,
the sidebar reports 0 of 0 with progress fraction 0, and no division by
zero occurs because line 266 guards the quotient with
`if image_data_list else 0`; moreover the unlabeled filter of an empty
catalog is empty for every store. -/
theorem c9_empty_catalog (whitelist : List String) (input modality : String)
    (fs : LabelFS) (hne : input ≠ "") (hmem : input ∈ whitelist)
    (hload : load_doctor_labels fs input modality = []) :
    runMain whitelist input modality fs [] false =
      (.allLabeled, (0, 0, 0), [(input, modality), (input, modality)]) ∧
    progress [] [] = 0 ∧
    (∀ labels : Store, unlabeled_images [] labels = []) := by
  have hwl : whitelist ≠ [] := List.ne_nil_of_mem hmem
  refine ⟨?_, by simp [progress], fun labels => rfl⟩
  simp [runMain, authenticate_doctor, hwl, hne, hmem, hload, currentImage,
    unlabeled_images, progress]

/-- C9 witness: reviewer DOC1 with an empty catalog and no stored labels. -/
theorem c9_empty_catalog_witness :
    ("DOC1" : String) ≠ "" ∧ "DOC1" ∈ (["DOC1"] : List String) ∧
    load_doctor_labels (fun _ _ => none) "DOC1" "CXR" = [] ∧
    runMain ["DOC1"] "DOC1" "CXR" (fun _ _ => none) [] false =
      (.allLabeled, (0, 0, 0), [("DOC1", "CXR"), ("DOC1", "CXR")]) :=
  ⟨by decide, by decide, rfl,
   (c9_empty_catalog ["DOC1"] "DOC1" "CXR" (fun _ _ => none)
      (by decide) (by decide) rfl).1⟩

/-- C2: No duplicate/skip sequencing.  For a catalog `[A, B, C]` in catalog
order with pairwise-distinct label keys and an initially empty store, the
current item (head of the catalog filtered to keys absent from the store)
is `A`; after `save_label` of any category for `A` it is `B`; after `B` it
is `C`; and after `C` no unlabeled item remains, i.e. the session is in the
all-labeled state (app.py line 290). -/
theorem c2_no_duplicate_skip (fs : LabelFS) (did modality : String)
    (A B C : ImageData) (cA cB cC nA nB nC eA eB eC rA rB rC : String)
    (h0 : load_doctor_labels fs did modality = [])
    (hAB : make_label_key A ≠ make_label_key B)
    (hAC : make_label_key A ≠ make_label_key C)
    (hBC : make_label_key B ≠ make_label_key C) :
    currentImage [A, B, C] (load_doctor_labels fs did modality) = some A ∧
    currentImage [A, B, C] (load_doctor_labels
      (save_label fs did modality (make_label_key A) cA nA A eA rA)
      did modality) = some B ∧
    currentImage [A, B, C] (load_doctor_labels
      (save_label (save_label fs did modality (make_label_key A) cA nA A eA rA)
        did modality (make_label_key B) cB nB B eB rB)
      did modality) = some C ∧
    currentImage [A, B, C] (load_doctor_labels
      (save_label
        (save_label (save_label fs did modality (make_label_key A) cA nA A eA rA)
          did modality (make_label_key B) cB nB B eB rB)
        did modality (make_label_key C) cC nC C eC rC)
      did modality) = none ∧
    unlabeled_images [A, B, C] (load_doctor_labels
      (save_label
        (save_label (save_label fs did modality (make_label_key A) cA nA A eA rA)
          did modality (make_label_key B) cB nB B eB rB)
        did modality (make_label_key C) cC nC C eC rC)
      did modality) = [] := by
  have e1 := load_after_save_label fs did modality (make_label_key A) cA nA A eA rA
  rw [h0] at e1
  have e2 := load_after_save_label
    (save_label fs did modality (make_label_key A) cA nA A eA rA)
    did modality (make_label_key B) cB nB B eB rB
  rw [e1] at e2
  have e3 := load_after_save_label
    (save_label (save_label fs did modality (make_label_key A) cA nA A eA rA)
      did modality (make_label_key B) cB nB B eB rB)
    did modality (make_label_key C) cC nC C eC rC
  rw [e2] at e3
  refine ⟨?_, ?_, ?_, ?_, ?_⟩
  · simp [currentImage, unlabeled_images, h0, dictContains, dictGet]
  · rw [e1]
    simp [currentImage, unlabeled_images, dictContains, dictGet, dictInsert,
      hAB, hAC]
  · rw [e2]
    simp [currentImage, unlabeled_images, dictContains, dictGet, dictInsert,
      hAB, hAC, hBC]
  · rw [e3]
    simp [currentImage, unlabeled_images, dictContains, dictGet, dictInsert,
      hAB, hAC, hBC]
  · rw [e3]
    simp [unlabeled_images, dictContains, dictGet, dictInsert, hAB, hAC, hBC]

/-- C2 witness: three easy-bucket items labeled in order from an empty
store; after the first submission the current item is the second one. -/
theorem c2_no_duplicate_skip_witness :
    (load_doctor_labels (fun _ _ => none) "DOC1" "CXR" = [] ∧
     make_label_key ⟨"a.png", "CXR", "easy"⟩ ≠
       make_label_key ⟨"b.png", "CXR", "easy"⟩ ∧
     make_label_key ⟨"a.png", "CXR", "easy"⟩ ≠
       make_label_key ⟨"c.png", "CXR", "easy"⟩ ∧
     make_label_key ⟨"b.png", "CXR", "easy"⟩ ≠
       make_label_key ⟨"c.png", "CXR", "easy"⟩) ∧
    currentImage
      [⟨"a.png", "CXR", "easy"⟩, ⟨"b.png", "CXR", "easy"⟩,
       ⟨"c.png", "CXR", "easy"⟩]
      (load_doctor_labels
        (save_label (fun _ _ => none) "DOC1" "CXR"
          (make_label_key ⟨"a.png", "CXR", "easy"⟩) "very_low" "t1"
          ⟨"a.png", "CXR", "easy"⟩ "e1" "r1")
        "DOC1" "CXR") = some ⟨"b.png", "CXR", "easy"⟩ :=
  ⟨⟨rfl, by decide, by decide, by decide⟩,
   (c2_no_duplicate_skip (fun _ _ => none) "DOC1" "CXR"
      ⟨"a.png", "CXR", "easy"⟩ ⟨"b.png", "CXR", "easy"⟩ ⟨"c.png", "CXR", "easy"⟩
      "very_low" "low" "high" "t1" "t2" "t3" "e1" "e2" "e3" "r1" "r2" "r3"
      rfl (by decide) (by decide) (by decide)).2.1⟩

/-- C7: Edit frame property.  Editing an already-present key `K` through
`save_label` changes only the record at `K` (the stored record becomes the
freshly built one, carrying the new timestamp), leaves the record at every
other key unchanged, and leaves the current-item pointer (head of the
catalog filtered to keys absent from the store) unaffected. -/
theorem c7_edit_frame (fs : LabelFS) (did modality : String)
    (catalog : List ImageData) (store : Store) (K conf now : String)
    (img : ImageData) (ehr reas : String)
    (hload : load_doctor_labels fs did modality = store)
    (hK : dictContains store K = true) :
    load_doctor_labels (save_label fs did modality K conf now img ehr reas)
        did modality =
      dictInsert K (mkLabelData conf now img ehr reas) store ∧
    dictGet (dictInsert K (mkLabelData conf now img ehr reas) store) K =
      some (mkLabelData conf now img ehr reas) ∧
    dictGet (mkLabelData conf now img ehr reas) "timestamp" = some now ∧
    (∀ k2, k2 ≠ K →
      dictGet (dictInsert K (mkLabelData conf now img ehr reas) store) k2 =
        dictGet store k2) ∧
    currentImage catalog (dictInsert K (mkLabelData conf now img ehr reas) store) =
      currentImage catalog store := by
  refine ⟨by rw [load_after_save_label, hload], ?_, ?_, ?_, ?_⟩
  · rw [dictGet_dictInsert, if_pos rfl]
  · simp [mkLabelData, dictGet]
  · intro k2 hk2
    rw [dictGet_dictInsert, if_neg (fun h => hk2 h.symm)]
  · have hcong := unlabeled_images_congr catalog
      (dictInsert K (mkLabelData conf now img ehr reas) store) store ?_
    · simp [currentImage, hcong]
    · intro img2 _
      rw [dictContains_dictInsert]
      by_cases h : K = make_label_key img2
      · rw [if_pos h, ← h, hK]
      · rw [if_neg h]

/-- C7 witness: editing the stored record for `easy/x.png` leaves the
current-item pointer unchanged. -/
theorem c7_edit_frame_witness :
    (load_doctor_labels
        (fun _ _ =>
          some [("easy/x.png", [("doctor_confidence", "low"), ("reasoning", "r1")])])
        "DOC1" "CXR" =
      [("easy/x.png", [("doctor_confidence", "low"), ("reasoning", "r1")])] ∧
     dictContains
       [("easy/x.png", [("doctor_confidence", "low"), ("reasoning", "r1")])]
       "easy/x.png" = true) ∧
    currentImage [⟨"x.png", "CXR", "easy"⟩, ⟨"y.png", "CXR", "easy"⟩]
      (dictInsert "easy/x.png"
        (mkLabelData "high" "t2" ⟨"x.png", "CXR", "easy"⟩ "same" "r2")
        [("easy/x.png", [("doctor_confidence", "low"), ("reasoning", "r1")])]) =
    currentImage [⟨"x.png", "CXR", "easy"⟩, ⟨"y.png", "CXR", "easy"⟩]
      [("easy/x.png", [("doctor_confidence", "low"), ("reasoning", "r1")])] :=
  ⟨⟨rfl, by decide⟩,
   (c7_edit_frame
      (fun _ _ =>
        some [("easy/x.png", [("doctor_confidence", "low"), ("reasoning", "r1")])])
      "DOC1" "CXR" [⟨"x.png", "CXR", "easy"⟩, ⟨"y.png", "CXR", "easy"⟩]
      [("easy/x.png", [("doctor_confidence", "low"), ("reasoning", "r1")])]
      "easy/x.png" "high" "t2" ⟨"x.png", "CXR", "easy"⟩ "same" "r2"
      rfl (by decide)).2.2.2.2⟩

theorem currentConf_of_recordCategory (label_data : LabelRecord) (c : String)
    (h : recordCategory label_data = some c) : currentConf label_data = c := by
  unfold recordCategory at h
  unfold currentConf
  cases ha : dictGet label_data "doctor_confidence" with
  | none =>
    rw [ha] at h
    cases hb : dictGet label_data "doctor_difficulty" with
    | none => rw [hb] at h; simp [truthy] at h
    | some t =>
      rw [hb] at h
      by_cases ht : t = ""
      · subst ht; simp [truthy] at h
      · simp [truthy, ht] at h
        subst h
        simp [pyOrD, ht]
  | some s =>
    rw [ha] at h
    by_cases hs : s = ""
    · subst hs
      cases hb : dictGet label_data "doctor_difficulty" with
      | none => rw [hb] at h; simp [truthy] at h
      | some t =>
        rw [hb] at h
        by_cases ht : t = ""
        · subst ht; simp [truthy] at h
        · simp [truthy, ht] at h
          subst h
          simp [pyOrD, ht]
    · simp [truthy, hs] at h
      subst h
      simp [pyOrD, hs]

/-- C8: Save-report-text-only edit.  For a stored record whose category
fallback chain (`doctor_confidence`, else `doctor_difficulty`) yields a
truthy value `c`, the "Save EHR Only" handler re-saves the record with the
new report text and new (stripped) reasoning while the stored category
value stays `c`. -/
theorem c8_save_report_text_only (fs : LabelFS) (did modality K : String)
    (label_data : LabelRecord) (now : String) (img : ImageData)
    (ehr reas c : String)
    (hc : recordCategory label_data = some c) :
    load_doctor_labels (save_ehr_only fs did modality K label_data now img ehr reas)
        did modality =
      dictInsert K (mkLabelData c now img ehr reas)
        (load_doctor_labels fs did modality) ∧
    dictGet (mkLabelData c now img ehr reas) "doctor_confidence" = some c ∧
    dictGet (mkLabelData c now img ehr reas) "ehr_text" = some ehr ∧
    dictGet (mkLabelData c now img ehr reas) "reasoning" =
      some (stripReasoning reas) := by
  have hcc := currentConf_of_recordCategory label_data c hc
  refine ⟨?_, ?_, ?_, ?_⟩
  · simp only [save_ehr_only, hcc]
    exact load_after_save_label fs did modality K c now img ehr reas
  · simp [mkLabelData, dictGet]
  · simp [mkLabelData, dictGet]
  · simp [mkLabelData, dictGet]

/-- C8 witness: a legacy record carrying only `doctor_difficulty = "high"`
keeps category value `"high"` (now under `doctor_confidence`) after a
save-report-text-only edit. -/
theorem c8_save_report_text_only_witness :
    recordCategory [("doctor_difficulty", "high"), ("timestamp", "t0")] =
      some "high" ∧
    dictGet (mkLabelData "high" "t1" ⟨"x.png", "CXR", "easy"⟩ " new ehr " " r2 ")
      "doctor_confidence" = some "high" :=
  ⟨by decide,
   (c8_save_report_text_only (fun _ _ => none) "DOC1" "CXR" "easy/x.png"
      [("doctor_difficulty", "high"), ("timestamp", "t0")] "t1"
      ⟨"x.png", "CXR", "easy"⟩ " new ehr " " r2 " "high" (by decide)).2.1⟩

/-- C10: Schema-normalization invariant.  Every record written through
`save_label` (submit, skip, drop and every history edit all call it) is the
freshly built `mkLabelData`: its field names are exactly
doctor_confidence, timestamp, modality, difficulty, filename, ehr_text,
reasoning (in particular the legacy name doctor_difficulty never occurs),
the category is stored under `doctor_confidence`, and the reasoning is the
whitespace-stripped input, the empty string when the input is absent. -/
theorem c10_schema_normalization (fs : LabelFS) (did modality K conf now : String)
    (img : ImageData) (ehr reasoning : String) :
    dictGet (load_doctor_labels
        (save_label fs did modality K conf now img ehr reasoning) did modality) K =
      some (mkLabelData conf now img ehr reasoning) ∧
    (mkLabelData conf now img ehr reasoning).map Prod.fst =
      ["doctor_confidence", "timestamp", "modality", "difficulty", "filename",
       "ehr_text", "reasoning"] ∧
    "doctor_difficulty" ∉ (mkLabelData conf now img ehr reasoning).map Prod.fst ∧
    dictGet (mkLabelData conf now img ehr reasoning) "doctor_confidence" =
      some conf ∧
    dictGet (mkLabelData conf now img ehr reasoning) "reasoning" =
      some (stripReasoning reasoning) ∧
    stripReasoning "" = "" := by
  refine ⟨?_, rfl, ?_, ?_, ?_, rfl⟩
  · rw [load_after_save_label, dictGet_dictInsert, if_pos rfl]
  · simp [mkLabelData]
  · simp [mkLabelData, dictGet]
  · simp [mkLabelData, dictGet]

end MDApp
